import Mathlib

/-!
Verification of the GloBot cross-server relay (src/bot.py) against its
specification.  The Python source is shallowly embedded: the global mutable
`data` dict (plus its on-disk copy written by `save_data`) becomes an explicit
`Store` value threaded through the functions, every external side effect
(oracle inference, translation HTTP call, platform API call, file write)
becomes an element of an `Effect` trace, and each relevant Python function
(`translate_text`, `is_toxic`, `add_warning`, `get_warnings`,
`log_toxic_message`, `send_to_channel`, `on_message`) becomes a Lean function
of the same name returning its result together with the trace of effects it
performs.
-/

set_option maxRecDepth 8000

/-- Per-category toxicity probabilities, as returned by the classifier:
`dict(zip(labels, probs))` becomes an association list of label and
probability (a rational in place of the Python float). -/
abbrev Score := List (String × Rat)

/-- Identity of a message author (`discord.User`): the fields of the SDK
object that `on_message` and `send_to_channel` read. -/
structure Author where
  id : Nat
  bot : Bool
  displayName : String
  avatarUrl : String
deriving DecidableEq

/-- An inbound message event (`discord.Message`): the fields the handler
reads.  `channelId` is `message.channel.id` and `guildId` is
`message.guild.id`. -/
structure Message where
  author : Author
  content : String
  channelId : Nat
  guildId : Nat
deriving DecidableEq

/-- One entry of `data["channels"]`: `{"lang": …, "guild_id": …,
"channel_id": …}` as written by the `/addchannel` command. -/
structure ChannelInfo where
  lang : String
  guild_id : Nat
  channel_id : Nat
deriving DecidableEq

/-- The JSON structure held in `data.json` / the global `data` dict:
`{"channels": {}, "logs": {}, "warnings": {}, "webhooks": {}}`.  Python dicts
keyed by `str(id)` become association lists keyed by the numeric id
(`str` on distinct naturals is injective, and dict iteration order is
insertion order, which the list order models). -/
structure DataState where
  channels : List (Nat × ChannelInfo)
  logs : List (Nat × Nat)
  warnings : List (Nat × List (Nat × Nat))
  webhooks : List (Nat × Nat)
deriving DecidableEq

/-- The default structure created when `data.json` does not exist. -/
def emptyData : DataState := ⟨[], [], [], []⟩

/-- Process state: `mem` is the in-memory global `data`; `saved` is the last
snapshot written to `data.json` by `save_data`. -/
structure Store where
  mem : DataState
  saved : DataState
deriving DecidableEq

/-- Dictionary read `d.get(k)`: first binding of the key in the association
list. -/
def alookup {α : Type} : List (Nat × α) → Nat → Option α
  | [], _ => none
  | (k, v) :: rest, key => if k = key then some v else alookup rest key

/-- Dictionary write `d[k] = v`: replace the binding in place, or append a new
one (Python dicts keep the position of an existing key and append new keys). -/
def aset {α : Type} : List (Nat × α) → Nat → α → List (Nat × α)
  | [], key, val => [(key, val)]
  | (k, v) :: rest, key, val =>
    if k = key then (key, val) :: rest else (k, v) :: aset rest key val

/-- Whether a character list starts with the pattern `pat`. -/
def charsStartWith : List Char → List Char → Bool
  | [], _ => true
  | _ :: _, [] => false
  | p :: ps, c :: cs => (p == c) && charsStartWith ps cs

/-- Whether the pattern `pat` occurs as a contiguous run of the character
list. -/
def charsContain (pat : List Char) : List Char → Bool
  | [] => charsStartWith pat []
  | c :: cs => charsStartWith pat (c :: cs) || charsContain pat cs

/-- Embeds the link filter regex test used at two points in the source:
`re.search(r"https?://", content)` matches exactly when `content` contains
the substring `http://` or the substring `https://`. -/
def hasUrl (s : String) : Bool :=
  charsContain "http://".toList s.toList || charsContain "https://".toList s.toList

/-- Result of the translation HTTP POST, at the granularity `translate_text`
inspects it: a raised transport exception, or a status code with a body.
`body = none` models `r.json()` raising (malformed body); `body = some none`
models a JSON object without the `translatedText` key; `body = some (some s)`
models `{"translatedText": s, …}`. -/
inductive TranslateHttp where
  | transportError : TranslateHttp
  | status (code : Nat) (body : Option (Option String)) : TranslateHttp

/-- Observable effects of the pipeline: each constructor is one of the
external operations of §6 of the spec (classifier inference, translation
call, registry file write, platform API call).  `notifyAuthor` is the
platform "send direct notification" operation; it is part of the effect
vocabulary so that its absence from a trace is expressible. -/
inductive Effect where
  | oracleCall (text : String) : Effect
  | translateCall (text target : String) : Effect
  | saveData (snapshot : DataState) : Effect
  | logEmbed (channelId userId : Nat) (content : String) (scores : Score) : Effect
  | deleteMessage : Effect
  | fetchWebhook (webhookId : Nat) : Effect
  | createWebhook (channelId : Nat) : Effect
  | deliverCall (channelId : Nat) : Effect
  | post (webhookId : Nat) (content username avatarUrl : String)
      (mentionsSuppressed : Bool) : Effect
  | notifyAuthor (userId count : Nat) : Effect
deriving DecidableEq

/-- Terminal state of the per-message state machine of §4.5. -/
inductive Outcome where
  | ignoredBot : Outcome
  | ignoredUnregistered : Outcome
  | skippedLink : Outcome
  | moderated : Outcome
  | relayed : Outcome
deriving DecidableEq

/-- Static environment of the process: the configuration flags and the
behavior of the external collaborators during the processing of one message.
`oracle` is `classify_text`; `translateResp` is the translation HTTP POST;
`resolveGuild`/`resolveChannel` are `bot.get_guild`/`guild.get_channel`
succeeding or not; `fetchWebhook` tells whether `bot.fetch_webhook` finds the
id or raises `NotFound`; `createWebhook` gives the id of the webhook
`channel.create_webhook` returns.  `selfUser` is the bot's own user, which
the platform marks as a bot account (`self_is_bot`). -/
structure Env where
  enableToxicity : Bool
  enableTranslation : Bool
  oracle : String → Score
  translateResp : String → String → TranslateHttp
  resolveGuild : Nat → Bool
  resolveChannel : Nat → Nat → Bool
  fetchWebhook : Nat → Bool
  createWebhook : Nat → Nat
  selfUser : Author
  self_is_bot : selfUser.bot = true

/-- Embeds `translate_text` (bot.py lines 87-100).  Returns the resulting
text and the trace of network calls (empty when the feature is disabled,
exactly one POST otherwise).  Every failure shape — transport exception,
non-200 status, body that fails to parse, missing `translatedText` key —
falls back to the original text; the Lean function is total, mirroring that
the Python function lets no exception escape. -/
def translate_text (env : Env) (text target_lang : String) : String × List Effect :=
  if env.enableTranslation = false then (text, [])
  else
    let acts := [Effect.translateCall text target_lang]
    match env.translateResp text target_lang with
    | .transportError => (text, acts)
    | .status code body =>
      if code = 200 then
        match body with
        | some (some s) => (s, acts)
        | some none => (text, acts)
        | none => (text, acts)
      else (text, acts)

/-- Embeds `is_toxic` (bot.py lines 102-106): `(False, {})` when the feature
is disabled, otherwise the oracle scores together with
`any(v > 0.5 for v in scores.values())`.  The threshold `0.5` is `mkRat 1 2`.
The third component is the inference call performed. -/
def is_toxic (env : Env) (text : String) : Bool × Score × List Effect :=
  if env.enableToxicity = false then (false, [], [])
  else
    let scores := env.oracle text
    (scores.any fun kv => decide (mkRat 1 2 < kv.2), scores, [.oracleCall text])

/-- Embeds `add_warning` (bot.py lines 108-111).  The first component is the
value the Python coroutine returns — always `None`, since the function body
has no return statement — kept as `Option Nat` because the spec's contract
says an integer is returned.  `save_data(data)` makes `saved` equal the new
in-memory state and emits the file write. -/
def add_warning (st : Store) (guild_id user_id : Nat) : Option Nat × Store × List Effect :=
  let gmap := (alookup st.mem.warnings guild_id).getD []
  let gmap2 := aset gmap user_id ((alookup gmap user_id).getD 0 + 1)
  let mem2 : DataState := { st.mem with warnings := aset st.mem.warnings guild_id gmap2 }
  (none, { mem := mem2, saved := mem2 }, [.saveData mem2])

/-- Embeds `get_warnings` (bot.py lines 113-114):
`data["warnings"].get(str(guild_id), {}).get(str(user_id), 0)`. -/
def get_warnings (d : DataState) (guild_id user_id : Nat) : Nat :=
  (alookup ((alookup d.warnings guild_id).getD []) user_id).getD 0

/-- Embeds `log_toxic_message` (bot.py lines 116-127): nothing when the guild
has no log channel configured (or the stored id is the falsy `0`) or when
`guild.get_channel` does not resolve it; otherwise one embed posted to the
log channel carrying the author, the original text and the full score map. -/
def log_toxic_message (env : Env) (st : Store) (m : Message) (scores : Score) : List Effect :=
  match alookup st.mem.logs m.guildId with
  | none => []
  | some ch =>
    if ch = 0 then []
    else if env.resolveChannel m.guildId ch then
      [.logEmbed ch m.author.id m.content scores]
    else []

/-- Embeds the webhook resolution part of `send_to_channel` (bot.py lines
135-145): reuse the cached id when `bot.fetch_webhook` finds it; on a cache
miss or a `NotFound`, create a webhook, store its id in `data["webhooks"]`
and `save_data` before returning it. -/
def resolve_webhook (env : Env) (st : Store) (channel_id : Nat) : Nat × Store × List Effect :=
  match alookup st.mem.webhooks channel_id with
  | some wh_id =>
    if env.fetchWebhook wh_id then (wh_id, st, [.fetchWebhook wh_id])
    else
      let new_id := env.createWebhook channel_id
      let mem2 : DataState := { st.mem with webhooks := aset st.mem.webhooks channel_id new_id }
      (new_id, { mem := mem2, saved := mem2 },
        [.fetchWebhook wh_id, .createWebhook channel_id, .saveData mem2])
  | none =>
    let new_id := env.createWebhook channel_id
    let mem2 : DataState := { st.mem with webhooks := aset st.mem.webhooks channel_id new_id }
    (new_id, { mem := mem2, saved := mem2 },
      [.createWebhook channel_id, .saveData mem2])

/-- Embeds `send_to_channel` (bot.py lines 130-156).  The `deliverCall`
action records the invocation itself (one delivery attempt).  A content that
matches the link regex is skipped before any webhook work; otherwise the
webhook is resolved and the message posted with
`username=author.display_name[:32]`, the author's avatar, and
`allowed_mentions=discord.AllowedMentions.none()` (the `true` flag of
`Effect.post`). -/
def send_to_channel (env : Env) (st : Store) (channel_id : Nat) (author : Author)
    (content : String) : Store × List Effect :=
  if hasUrl content then (st, [.deliverCall channel_id])
  else
    let r := resolve_webhook env st channel_id
    (r.2.1, .deliverCall channel_id ::
      (r.2.2 ++ [.post r.1 content (author.displayName.take 32) author.avatarUrl true]))

/-- Embeds the fan-out loop of `on_message` (bot.py lines 335-346): iterate
the registered channels, skip the source key and any destination whose guild
or channel does not resolve, translate the original content into the
destination's language, and hand it to `send_to_channel`. -/
def fanout (env : Env) (m : Message) : Store → List (Nat × ChannelInfo) → Store × List Effect
  | st, [] => (st, [])
  | st, (cid, info) :: rest =>
    if cid = m.channelId then fanout env m st rest
    else if env.resolveGuild info.guild_id = false then fanout env m st rest
    else if env.resolveChannel info.guild_id info.channel_id = false then fanout env m st rest
    else
      let t := translate_text env m.content info.lang
      let s := send_to_channel env st info.channel_id m.author t.1
      let r := fanout env m s.1 rest
      (r.1, (t.2 ++ s.2) ++ r.2)

/-- Embeds the `on_message` event handler (bot.py lines 309-346) as one pure
transition: state before ↦ (state after, effect trace, terminal outcome).
Bot authors are dropped first; then unregistered channels; then contents
matching the link regex; then, with toxicity enabled, a toxic score deletes
the message after warning and logging; otherwise the message is translated
(first, line 332-333, into the source channel's own language — a call whose
result the loop overwrites) and fanned out. -/
def on_message (env : Env) (st : Store) (m : Message) : Store × List Effect × Outcome :=
  if m.author.bot then (st, [], .ignoredBot)
  else
    match alookup st.mem.channels m.channelId with
    | none => (st, [], .ignoredUnregistered)
    | some info =>
      if hasUrl m.content then (st, [], .skippedLink)
      else if env.enableToxicity then
        let tox := is_toxic env m.content
        if tox.1 then
          let w := add_warning st m.guildId m.author.id
          let logTr := log_toxic_message env w.2.1 m tox.2.1
          (w.2.1, tox.2.2 ++ w.2.2 ++ logTr ++ [.deleteMessage], .moderated)
        else
          let t0 := translate_text env m.content info.lang
          let f := fanout env m st st.mem.channels
          (f.1, tox.2.2 ++ t0.2 ++ f.2, .relayed)
      else
        let t0 := translate_text env m.content info.lang
        let f := fanout env m st st.mem.channels
        (f.1, t0.2 ++ f.2, .relayed)

/-- Whether an action is a webhook post. -/
def Effect.isPost : Effect → Bool
  | .post _ _ _ _ _ => true
  | _ => false

/-- Whether an action is a delivery attempt (a `send_to_channel`
invocation). -/
def Effect.isDeliverCall : Effect → Bool
  | .deliverCall _ => true
  | _ => false

/-- Whether an action is a webhook creation. -/
def Effect.isCreateWebhook : Effect → Bool
  | .createWebhook _ => true
  | _ => false

/-- Whether an action is a private notification of a user. -/
def Effect.isNotifyAuthor : Effect → Bool
  | .notifyAuthor _ _ => true
  | _ => false

/-- The destination channels of the delivery attempts of a trace, in
order. -/
def deliverTargets (tr : List Effect) : List Nat :=
  tr.filterMap fun a => match a with
    | .deliverCall c => some c
    | _ => none

/-- Whether a post action (if the action is one) carries the identity the
spec requires: display name truncated to 32 characters, the author's
avatar, and mention expansion suppressed. -/
def postIdentityOk (author : Author) : Effect → Bool
  | .post _ _ u av supp =>
    (u == author.displayName.take 32) && (av == author.avatarUrl) && supp
  | _ => true

/-- The sublist of registered channels that the fan-out loop actually
delivers to: every entry except the source key and the entries whose guild
or channel fails to resolve. -/
def eligible (env : Env) (src : Nat) : List (Nat × ChannelInfo) → List (Nat × ChannelInfo)
  | [] => []
  | (cid, info) :: rest =>
    if cid = src then eligible env src rest
    else if env.resolveGuild info.guild_id = false then eligible env src rest
    else if env.resolveChannel info.guild_id info.channel_id = false then eligible env src rest
    else (cid, info) :: eligible env src rest

/-- Well-formedness of the channel registry as established by `/addchannel`:
keys are unique (a Python dict) and each entry's stored `channel_id` equals
its key. -/
def channelsWF (d : DataState) : Prop :=
  (d.channels.map Prod.fst).Nodup ∧ ∀ p ∈ d.channels, p.2.channel_id = p.1

section Lemmas

theorem alookup_aset_self {α : Type} (l : List (Nat × α)) (k : Nat) (v : α) :
    alookup (aset l k v) k = some v := by
  induction l with
  | nil => simp [aset, alookup]
  | cons p rest ih =>
    by_cases h : p.1 = k
    · simp [aset, h, alookup]
    · simp [aset, h, alookup, ih]

theorem alookup_aset_ne {α : Type} (l : List (Nat × α)) (k k' : Nat) (v : α)
    (h : k' ≠ k) : alookup (aset l k v) k' = alookup l k' := by
  induction l with
  | nil => simp [aset, alookup, Ne.symm h]
  | cons p rest ih =>
    by_cases hpk : p.1 = k
    · subst hpk
      simp [aset, alookup, Ne.symm h]
    · simp only [aset, hpk, if_false, alookup]
      by_cases hpk' : p.1 = k'
      · simp [hpk']
      · simp [hpk', ih]

theorem alookup_mem_keys {α : Type} (l : List (Nat × α)) (k : Nat) (v : α)
    (h : alookup l k = some v) : k ∈ l.map Prod.fst := by
  induction l with
  | nil => simp [alookup] at h
  | cons p rest ih =>
    simp only [alookup] at h
    by_cases hpk : p.1 = k
    · simp [hpk]
    · simp only [hpk, if_false] at h
      simp [ih h]

theorem get_warnings_add_self (st : Store) (g u : Nat) :
    get_warnings (add_warning st g u).2.1.mem g u = get_warnings st.mem g u + 1 := by
  simp [add_warning, get_warnings, alookup_aset_self]

theorem get_warnings_add_le (st : Store) (g u g' u' : Nat) :
    get_warnings st.mem g' u' ≤ get_warnings (add_warning st g u).2.1.mem g' u' := by
  by_cases hg : g' = g
  · subst hg
    by_cases hu : u' = u
    · subst hu
      simp [get_warnings_add_self]
    · simp [add_warning, get_warnings, alookup_aset_self, alookup_aset_ne _ _ _ _ hu]
  · simp [add_warning, get_warnings, alookup_aset_ne _ _ _ _ hg]

theorem add_warning_logs (st : Store) (g u : Nat) :
    (add_warning st g u).2.1.mem.logs = st.mem.logs := rfl

theorem add_warning_saved (st : Store) (g u : Nat) :
    (add_warning st g u).2.1.saved = (add_warning st g u).2.1.mem := rfl

theorem resolve_webhook_mem_webhooks (env : Env) (st : Store) (cid : Nat) :
    alookup (resolve_webhook env st cid).2.1.mem.webhooks cid
      = some (resolve_webhook env st cid).1 := by
  unfold resolve_webhook
  match h : alookup st.mem.webhooks cid with
  | some wh_id =>
    by_cases hf : env.fetchWebhook wh_id
    · simp [hf, h]
    · simp [hf, alookup_aset_self]
  | none => simp [alookup_aset_self]

theorem resolve_webhook_warnings (env : Env) (st : Store) (cid : Nat) :
    (resolve_webhook env st cid).2.1.mem.warnings = st.mem.warnings := by
  unfold resolve_webhook
  match h : alookup st.mem.webhooks cid with
  | some wh_id =>
    by_cases hf : env.fetchWebhook wh_id
    · simp [hf]
    · simp [hf]
  | none => simp

theorem send_to_channel_warnings (env : Env) (st : Store) (cid : Nat) (a : Author)
    (content : String) :
    (send_to_channel env st cid a content).1.mem.warnings = st.mem.warnings := by
  unfold send_to_channel
  by_cases hu : hasUrl content
  · simp [hu]
  · simp [hu, resolve_webhook_warnings]

theorem fanout_warnings (env : Env) (m : Message) (st : Store)
    (l : List (Nat × ChannelInfo)) :
    (fanout env m st l).1.mem.warnings = st.mem.warnings := by
  induction l generalizing st with
  | nil => rfl
  | cons p rest ih =>
    obtain ⟨cid, info⟩ := p
    unfold fanout
    by_cases h1 : cid = m.channelId
    · simp [h1, ih]
    · by_cases h2 : env.resolveGuild info.guild_id
      · by_cases h3 : env.resolveChannel info.guild_id info.channel_id
        · simp [h1, h2, h3, ih, send_to_channel_warnings]
        · simp [h1, h2, h3, ih]
      · simp [h1, h2, ih]

end Lemmas

section TraceLemmas

theorem deliverTargets_append (a b : List Effect) :
    deliverTargets (a ++ b) = deliverTargets a ++ deliverTargets b := by
  simp [deliverTargets, List.filterMap_append]

theorem deliverTargets_translate (env : Env) (t lg : String) :
    deliverTargets (translate_text env t lg).2 = [] := by
  unfold translate_text
  by_cases he : env.enableTranslation
  · match h : env.translateResp t lg with
    | .transportError => simp [he, h, deliverTargets]
    | .status code body =>
      by_cases hc : code = 200
      · match body with
        | some (some s) => simp [he, h, hc, deliverTargets]
        | some none => simp [he, h, hc, deliverTargets]
        | none => simp [he, h, hc, deliverTargets]
      · simp [he, h, hc, deliverTargets]
  · simp [he, deliverTargets]

theorem deliverTargets_resolve (env : Env) (st : Store) (cid : Nat) :
    deliverTargets (resolve_webhook env st cid).2.2 = [] := by
  unfold resolve_webhook
  match h : alookup st.mem.webhooks cid with
  | some wh_id =>
    by_cases hf : env.fetchWebhook wh_id
    · simp [hf, deliverTargets]
    · simp [hf, deliverTargets]
  | none => simp [deliverTargets]

theorem deliverTargets_send (env : Env) (st : Store) (cid : Nat) (a : Author)
    (content : String) :
    deliverTargets (send_to_channel env st cid a content).2 = [cid] := by
  unfold send_to_channel resolve_webhook
  by_cases hu : hasUrl content
  · simp [hu, deliverTargets]
  · match h : alookup st.mem.webhooks cid with
    | some wh_id =>
      by_cases hf : env.fetchWebhook wh_id
      · simp [hu, h, hf, deliverTargets]
      · simp [hu, h, hf, deliverTargets]
    | none => simp [hu, h, deliverTargets]

theorem deliverTargets_log (env : Env) (st : Store) (m : Message) (s : Score) :
    deliverTargets (log_toxic_message env st m s) = [] := by
  unfold log_toxic_message
  match h : alookup st.mem.logs m.guildId with
  | none => simp [deliverTargets]
  | some ch =>
    by_cases hz : ch = 0
    · simp [hz, deliverTargets]
    · by_cases hr : env.resolveChannel m.guildId ch
      · simp [hz, hr, deliverTargets]
      · simp [hz, hr, deliverTargets]

theorem deliverTargets_fanout (env : Env) (m : Message) (st : Store)
    (l : List (Nat × ChannelInfo)) :
    deliverTargets (fanout env m st l).2
      = (eligible env m.channelId l).map fun p => p.2.channel_id := by
  induction l generalizing st with
  | nil => rfl
  | cons p rest ih =>
    obtain ⟨cid, info⟩ := p
    unfold fanout eligible
    by_cases h1 : cid = m.channelId
    · simp [h1, ih]
    · by_cases h2 : env.resolveGuild info.guild_id
      · by_cases h3 : env.resolveChannel info.guild_id info.channel_id
        · simp only [h1, h2, h3, if_false, if_true, Bool.true_eq_false, if_neg]
          simp [deliverTargets_append, deliverTargets_translate, deliverTargets_send, ih]
        · simp [h1, h2, h3, ih]
      · simp [h1, h2, ih]

end TraceLemmas

section EligibleLemmas

theorem eligible_mem {env : Env} {src : Nat} {l : List (Nat × ChannelInfo)}
    {p : Nat × ChannelInfo} (h : p ∈ eligible env src l) : p ∈ l ∧ p.1 ≠ src := by
  induction l with
  | nil => simp [eligible] at h
  | cons q rest ih =>
    obtain ⟨cid, info⟩ := q
    unfold eligible at h
    by_cases h1 : cid = src
    · rw [if_pos h1] at h
      exact ⟨List.mem_cons_of_mem _ (ih h).1, (ih h).2⟩
    · rw [if_neg h1] at h
      by_cases h2 : env.resolveGuild info.guild_id = false
      · rw [if_pos h2] at h
        exact ⟨List.mem_cons_of_mem _ (ih h).1, (ih h).2⟩
      · rw [if_neg h2] at h
        by_cases h3 : env.resolveChannel info.guild_id info.channel_id = false
        · rw [if_pos h3] at h
          exact ⟨List.mem_cons_of_mem _ (ih h).1, (ih h).2⟩
        · rw [if_neg h3] at h
          rcases List.mem_cons.mp h with hc | hm
          · subst hc
            exact ⟨List.mem_cons_self _ _, h1⟩
          · exact ⟨List.mem_cons_of_mem _ (ih hm).1, (ih hm).2⟩

end EligibleLemmas

theorem eligible_all (env : Env) (src : Nat) (l : List (Nat × ChannelInfo))
    (hres : ∀ p ∈ l, env.resolveGuild p.2.guild_id = true
      ∧ env.resolveChannel p.2.guild_id p.2.channel_id = true)
    (hsrc : src ∉ l.map Prod.fst) : eligible env src l = l := by
  induction l with
  | nil => rfl
  | cons q rest ih =>
    obtain ⟨cid, info⟩ := q
    have hq := hres (cid, info) (List.mem_cons_self _ _)
    have h1 : cid ≠ src := by
      intro hcon
      exact hsrc (by simp [hcon])
    have hsrc' : src ∉ rest.map Prod.fst := by
      intro hh
      exact hsrc (by simp [hh])
    unfold eligible
    rw [if_neg h1, if_neg (by simp [hq.1]), if_neg (by simp [hq.2]),
      ih (fun p hp => hres p (List.mem_cons_of_mem _ hp)) hsrc']

theorem eligible_length (env : Env) (src : Nat) (l : List (Nat × ChannelInfo))
    (hres : ∀ p ∈ l, env.resolveGuild p.2.guild_id = true
      ∧ env.resolveChannel p.2.guild_id p.2.channel_id = true)
    (hnd : (l.map Prod.fst).Nodup) (hmem : src ∈ l.map Prod.fst) :
    (eligible env src l).length = l.length - 1 := by
  induction l with
  | nil => simp at hmem
  | cons q rest ih =>
    obtain ⟨cid, info⟩ := q
    rw [List.map_cons] at hnd hmem
    have hnd' := List.nodup_cons.mp hnd
    rcases List.mem_cons.mp hmem with heq | hmem'
    · unfold eligible
      rw [if_pos heq.symm]
      rw [eligible_all env src rest (fun p hp => hres p (List.mem_cons_of_mem _ hp))
        (heq ▸ hnd'.1)]
      simp
    · have h1 : cid ≠ src := by
        intro hcon
        exact hnd'.1 (hcon ▸ hmem')
      have hq := hres (cid, info) (List.mem_cons_self _ _)
      have hpos : 0 < rest.length := by
        cases rest with
        | nil => simp at hmem'
        | cons _ _ => simp
      unfold eligible
      rw [if_neg h1, if_neg (by simp [hq.1]), if_neg (by simp [hq.2])]
      rw [List.length_cons, List.length_cons,
        ih (fun p hp => hres p (List.mem_cons_of_mem _ hp)) hnd'.2 hmem']
      omega

theorem on_message_toxic_eq (env : Env) (st : Store) (m : Message) (info : ChannelInfo)
    (hbot : m.author.bot = false)
    (hreg : alookup st.mem.channels m.channelId = some info)
    (hurl : hasUrl m.content = false)
    (hen : env.enableToxicity = true)
    (htox : ((env.oracle m.content).any fun kv => decide (mkRat 1 2 < kv.2)) = true) :
    on_message env st m =
      ((add_warning st m.guildId m.author.id).2.1,
        Effect.oracleCall m.content
          :: Effect.saveData (add_warning st m.guildId m.author.id).2.1.mem
          :: (log_toxic_message env (add_warning st m.guildId m.author.id).2.1 m
                (env.oracle m.content)
              ++ [Effect.deleteMessage]),
        .moderated) := by
  unfold on_message is_toxic
  rw [hbot]
  simp only [Bool.false_eq_true, if_false, hreg, hurl, hen]
  simp [htox, add_warning]

theorem on_message_relay_eq (env : Env) (st : Store) (m : Message) (info : ChannelInfo)
    (hbot : m.author.bot = false)
    (hreg : alookup st.mem.channels m.channelId = some info)
    (hurl : hasUrl m.content = false)
    (hacc : env.enableToxicity = false
      ∨ ((env.oracle m.content).any fun kv => decide (mkRat 1 2 < kv.2)) = false) :
    on_message env st m =
      ((fanout env m st st.mem.channels).1,
        (if env.enableToxicity then [Effect.oracleCall m.content] else [])
          ++ (translate_text env m.content info.lang).2
          ++ (fanout env m st st.mem.channels).2,
        .relayed) := by
  unfold on_message is_toxic
  rw [hbot]
  simp only [Bool.false_eq_true, if_false, hreg, hurl]
  rcases hacc with he | hnt
  · simp [he]
  · by_cases he : env.enableToxicity
    · simp [he, hnt]
    · simp [he]

section PostLemmas

theorem postOk_translate (env : Env) (a : Author) (t lg : String) :
    ((translate_text env t lg).2.all (postIdentityOk a)) = true := by
  unfold translate_text
  by_cases he : env.enableTranslation
  · match h : env.translateResp t lg with
    | .transportError => simp [he, h, postIdentityOk]
    | .status code body =>
      by_cases hc : code = 200
      · match body with
        | some (some s) => simp [he, h, hc, postIdentityOk]
        | some none => simp [he, h, hc, postIdentityOk]
        | none => simp [he, h, hc, postIdentityOk]
      · simp [he, h, hc, postIdentityOk]
  · simp [he]

theorem postOk_resolve (env : Env) (st : Store) (cid : Nat) (a : Author) :
    ((resolve_webhook env st cid).2.2.all (postIdentityOk a)) = true := by
  unfold resolve_webhook
  match h : alookup st.mem.webhooks cid with
  | some wh_id =>
    by_cases hf : env.fetchWebhook wh_id
    · simp [hf, postIdentityOk]
    · simp [hf, postIdentityOk]
  | none => simp [postIdentityOk]

theorem postOk_send (env : Env) (st : Store) (cid : Nat) (a : Author) (content : String) :
    ((send_to_channel env st cid a content).2.all (postIdentityOk a)) = true := by
  unfold send_to_channel
  by_cases hu : hasUrl content
  · simp [hu, postIdentityOk]
  · simp only [hu, Bool.false_eq_true, if_false, List.all_cons, List.all_append]
    simp [postIdentityOk, postOk_resolve]

theorem postOk_log (env : Env) (st : Store) (m : Message) (s : Score) (a : Author) :
    ((log_toxic_message env st m s).all (postIdentityOk a)) = true := by
  unfold log_toxic_message
  match h : alookup st.mem.logs m.guildId with
  | none => simp
  | some ch =>
    by_cases hz : ch = 0
    · simp [hz]
    · by_cases hr : env.resolveChannel m.guildId ch
      · simp [hz, hr, postIdentityOk]
      · simp [hz, hr]

theorem postOk_fanout (env : Env) (m : Message) (st : Store)
    (l : List (Nat × ChannelInfo)) :
    ((fanout env m st l).2.all (postIdentityOk m.author)) = true := by
  induction l generalizing st with
  | nil => rfl
  | cons p rest ih =>
    obtain ⟨cid, info⟩ := p
    unfold fanout
    by_cases h1 : cid = m.channelId
    · simp [h1, ih]
    · by_cases h2 : env.resolveGuild info.guild_id
      · by_cases h3 : env.resolveChannel info.guild_id info.channel_id
        · simp only [h1, h2, h3, Bool.true_eq_false, if_neg, if_false, List.all_append]
          simp [postOk_translate, postOk_send, ih]
        · simp [h1, h2, h3, ih]
      · simp [h1, h2, ih]

end PostLemmas

theorem get_warnings_on_message_le (env : Env) (st : Store) (m : Message) (g u : Nat) :
    get_warnings st.mem g u ≤ get_warnings (on_message env st m).1.mem g u := by
  unfold on_message
  by_cases hbot : m.author.bot
  · simp [hbot]
  · match hreg : alookup st.mem.channels m.channelId with
    | none => simp [hbot, hreg]
    | some info =>
      by_cases hurl : hasUrl m.content
      · simp [hbot, hreg, hurl]
      · by_cases hen : env.enableToxicity
        · by_cases htox : ((env.oracle m.content).any fun kv => decide (mkRat 1 2 < kv.2)) = true
          · simp only [hbot, hreg, hurl, hen, is_toxic, Bool.false_eq_true, if_false, if_true,
              Bool.not_eq_true, htox]
            simp [htox, get_warnings_add_le]
          · simp only [hbot, hreg, hurl, hen, is_toxic, Bool.false_eq_true, if_false, if_true]
            simp only [Bool.not_eq_true] at htox
            simp [htox]
            unfold get_warnings
            rw [fanout_warnings]
        · simp only [hbot, hreg, hurl, hen, Bool.false_eq_true, if_false]
          simp [hen]
          unfold get_warnings
          rw [fanout_warnings]

theorem log_no_post (env : Env) (st : Store) (m : Message) (s : Score) :
    ((log_toxic_message env st m s).all fun a => !a.isPost) = true := by
  unfold log_toxic_message
  match h : alookup st.mem.logs m.guildId with
  | none => simp
  | some ch =>
    by_cases hz : ch = 0
    · simp [hz]
    · by_cases hr : env.resolveChannel m.guildId ch
      · simp [hz, hr, Effect.isPost]
      · simp [hz, hr]

theorem log_no_notify (env : Env) (st : Store) (m : Message) (s : Score) :
    ((log_toxic_message env st m s).all fun a => !a.isNotifyAuthor) = true := by
  unfold log_toxic_message
  match h : alookup st.mem.logs m.guildId with
  | none => simp
  | some ch =>
    by_cases hz : ch = 0
    · simp [hz]
    · by_cases hr : env.resolveChannel m.guildId ch
      · simp [hz, hr, Effect.isNotifyAuthor]
      · simp [hz, hr]

theorem resolve_cached (env : Env) (st : Store) (cid : Nat) (w : Nat)
    (hc : alookup st.mem.webhooks cid = some w) (hf : env.fetchWebhook w = true) :
    resolve_webhook env st cid = (w, st, [Effect.fetchWebhook w]) := by
  unfold resolve_webhook
  rw [hc]
  simp [hf]

section Fixtures

/-- Score map a mocked classifier returns for every text: the `toxic`
category exceeds the 0.5 threshold. -/
def toxicScores : Score := [("toxic", mkRat 9 10), ("insult", mkRat 3 10)]

/-- Concrete environment: both features enabled, classifier always returns
`toxicScores`, translation succeeds with "hola", every platform resource
resolves. -/
def envA : Env where
  enableToxicity := true
  enableTranslation := true
  oracle := fun _ => toxicScores
  translateResp := fun _ _ => .status 200 (some (some "hola"))
  resolveGuild := fun _ => true
  resolveChannel := fun _ _ => true
  fetchWebhook := fun _ => true
  createWebhook := fun c => c + 100
  selfUser := ⟨42, true, "GloBot", "gb"⟩
  self_is_bot := rfl

/-- Like `envA` but with toxicity detection administratively disabled. -/
def envRelay : Env := { envA with enableToxicity := false }

/-- Like `envRelay` but no guild resolves (`bot.get_guild` returns `None`). -/
def envNoGuild : Env := { envRelay with resolveGuild := fun _ => false }

/-- Like `envRelay` but with translation disabled. -/
def envNoTranslate : Env := { envRelay with enableTranslation := false }

/-- Like `envRelay` but the translation service answers HTTP 500. -/
def envBadStatus : Env := { envRelay with translateResp := fun _ _ => .status 500 (some (some "x")) }

/-- Like `envRelay` but the translation POST raises a transport error. -/
def envTransportErr : Env := { envRelay with translateResp := fun _ _ => .transportError }

/-- Concrete registry: channels 1 (guild 10, "en") and 2 (guild 20, "es")
registered, guild 10 logs to channel 5, no warnings, no cached webhooks. -/
def stA : Store :=
  let d : DataState := ⟨[(1, ⟨"en", 10, 1⟩), (2, ⟨"es", 20, 2⟩)], [(10, 5)], [], []⟩
  ⟨d, d⟩

/-- A plain human-authored message in registered channel 1. -/
def mA : Message := ⟨⟨7, false, "Alice", "av"⟩, "hello", 1, 10⟩

/-- A human-authored message in registered channel 1 whose content contains
a URL. -/
def mB : Message := ⟨⟨7, false, "Alice", "av"⟩, "see https://x.y", 1, 10⟩

/-- A bot-authored message in registered channel 1. -/
def mBot : Message := ⟨⟨8, true, "OtherBot", "av2"⟩, "hello", 1, 10⟩

/-- A message authored by the relay bot itself. -/
def mSelf : Message := ⟨envA.selfUser, "hello", 1, 10⟩

/-- A human-authored message in unregistered channel 99. -/
def mUnreg : Message := ⟨⟨7, false, "Alice", "av"⟩, "hello", 99, 10⟩

end Fixtures

/-- C1 counterexample.  The claim quantifies over every message in a
registered channel with toxicity enabled, but the handler returns at the
link filter (and, even earlier, for bot authors) before the classifier ever
runs: here are two concrete messages in the registered channel 1 of `stA`,
with toxicity enabled and an oracle whose score map has a category above
0.5, for which the message is not classified toxic, not deleted, and the
warning ledger is untouched — one containing a URL, one authored by a bot. -/
theorem c1_counterexample :
    (((envA.oracle mB.content).any fun kv => decide (mkRat 1 2 < kv.2)) = true
      ∧ (on_message envA stA mB).2.2 ≠ .moderated
      ∧ Effect.deleteMessage ∉ (on_message envA stA mB).2.1
      ∧ (on_message envA stA mB).1 = stA)
    ∧ (((envA.oracle mBot.content).any fun kv => decide (mkRat 1 2 < kv.2)) = true
      ∧ (on_message envA stA mBot).2.2 ≠ .moderated
      ∧ Effect.deleteMessage ∉ (on_message envA stA mBot).2.1) := by
  decide

/-- C1 (amended): for every message that reaches the moderation gate — a
non-bot author in a registered channel whose content does not match the URL
filter — with toxicity enabled, the message is classified toxic (the handler
ends in the MODERATED terminal state) iff at least one category probability
in the oracle's score map exceeds 0.5; and whenever it is classified toxic,
the original message is deleted, the warning count for (guild, author)
increases by exactly 1, and no delivery attempt and no webhook post occurs. -/
theorem c1_theorem (env : Env) (st : Store) (m : Message) (info : ChannelInfo)
    (hbot : m.author.bot = false)
    (hreg : alookup st.mem.channels m.channelId = some info)
    (hurl : hasUrl m.content = false)
    (hen : env.enableToxicity = true) :
    ((on_message env st m).2.2 = .moderated
      ↔ ((env.oracle m.content).any fun kv => decide (mkRat 1 2 < kv.2)) = true)
    ∧ ((on_message env st m).2.2 = .moderated →
        Effect.deleteMessage ∈ (on_message env st m).2.1
        ∧ get_warnings (on_message env st m).1.mem m.guildId m.author.id
            = get_warnings st.mem m.guildId m.author.id + 1
        ∧ deliverTargets (on_message env st m).2.1 = []
        ∧ ((on_message env st m).2.1.all fun a => !a.isPost) = true) := by
  by_cases htox : ((env.oracle m.content).any fun kv => decide (mkRat 1 2 < kv.2)) = true
  · have heq := on_message_toxic_eq env st m info hbot hreg hurl hen htox
    refine ⟨⟨fun _ => htox, fun _ => by rw [heq]⟩, fun _ => ?_⟩
    rw [heq]
    refine ⟨by simp, get_warnings_add_self st m.guildId m.author.id, ?_, ?_⟩
    · have hlog := deliverTargets_log env (add_warning st m.guildId m.author.id).2.1 m
        (env.oracle m.content)
      simp only [deliverTargets, List.filterMap_cons, List.filterMap_append] at hlog ⊢
      simp [hlog]
    · simp only [List.all_cons, List.all_append, log_no_post]
      simp [Effect.isPost]
  · have heq := on_message_relay_eq env st m info hbot hreg hurl
      (Or.inr (by simpa using htox))
    rw [heq]
    constructor
    · simp only [htox, iff_false]
      simp
    · intro hcon
      simp at hcon

/-- C1 witness: the amended theorem applied to the concrete toxic message
`mA` in registered channel 1 of `stA` under `envA`. -/
theorem c1_witness :
    (on_message envA stA mA).2.2 = .moderated
    ∧ Effect.deleteMessage ∈ (on_message envA stA mA).2.1
    ∧ get_warnings (on_message envA stA mA).1.mem mA.guildId mA.author.id
        = get_warnings stA.mem mA.guildId mA.author.id + 1
    ∧ deliverTargets (on_message envA stA mA).2.1 = [] := by
  have h := c1_theorem envA stA mA ⟨"en", 10, 1⟩ rfl (by decide) (by decide) rfl
  have hm : (on_message envA stA mA).2.2 = .moderated := h.1.mpr (by decide)
  exact ⟨hm, (h.2 hm).1, (h.2 hm).2.1, (h.2 hm).2.2.1⟩

/-- C2 counterexample.  With two registered channels but a destination guild
that `bot.get_guild` cannot resolve (`envNoGuild`), a message accepted by
moderation in registered channel 1 results in zero delivery attempts, not
`registered channels - 1 = 1`: unresolvable destinations are silently
skipped by the fan-out loop. -/
theorem c2_counterexample :
    (on_message envNoGuild stA mA).2.2 = .relayed
    ∧ stA.mem.channels.length - 1 = 1
    ∧ (deliverTargets (on_message envNoGuild stA mA).2.1).length ≠ stA.mem.channels.length - 1 := by
  decide

/-- C2 (amended): for every message accepted by moderation in a registered,
well-formed registry, the delivery attempts are exactly the registered
channels other than the source whose guild and channel both resolve on the
platform; in particular, when every registered destination resolves, the
number of delivery attempts equals the number of registered channels minus
one, and the source channel is never among the delivery targets. -/
theorem c2_theorem (env : Env) (st : Store) (m : Message) (info : ChannelInfo)
    (hbot : m.author.bot = false)
    (hreg : alookup st.mem.channels m.channelId = some info)
    (hurl : hasUrl m.content = false)
    (hwf : channelsWF st.mem)
    (hacc : env.enableToxicity = false
      ∨ ((env.oracle m.content).any fun kv => decide (mkRat 1 2 < kv.2)) = false) :
    (on_message env st m).2.2 = .relayed
    ∧ deliverTargets (on_message env st m).2.1
        = ((eligible env m.channelId st.mem.channels).map fun p => p.2.channel_id)
    ∧ m.channelId ∉ deliverTargets (on_message env st m).2.1
    ∧ ((∀ p ∈ st.mem.channels, env.resolveGuild p.2.guild_id = true
          ∧ env.resolveChannel p.2.guild_id p.2.channel_id = true) →
        (deliverTargets (on_message env st m).2.1).length = st.mem.channels.length - 1) := by
  have heq := on_message_relay_eq env st m info hbot hreg hurl hacc
  rw [heq]
  have htargets : deliverTargets
      ((if env.enableToxicity then [Effect.oracleCall m.content] else [])
        ++ (translate_text env m.content info.lang).2
        ++ (fanout env m st st.mem.channels).2)
      = (eligible env m.channelId st.mem.channels).map fun p => p.2.channel_id := by
    rw [deliverTargets_append, deliverTargets_append, deliverTargets_translate,
      deliverTargets_fanout]
    by_cases he : env.enableToxicity
    · simp [he, deliverTargets]
    · simp [he, deliverTargets]
  refine ⟨rfl, htargets, ?_, ?_⟩
  · rw [htargets]
    intro hmem
    rcases List.mem_map.mp hmem with ⟨p, hp, hpc⟩
    have h2 := eligible_mem hp
    have h3 := hwf.2 p h2.1
    exact h2.2 (by rw [← h3, hpc])
  · intro hres
    rw [htargets, List.length_map]
    exact eligible_length env m.channelId st.mem.channels hres hwf.1
      (alookup_mem_keys _ _ _ hreg)

/-- C2 witness: the amended theorem applied to the concrete accepted message
`mA` under `envRelay`, where both destinations resolve: exactly one delivery
attempt (two registered channels), and the source channel 1 is not a
target. -/
theorem c2_witness :
    (on_message envRelay stA mA).2.2 = .relayed
    ∧ mA.channelId ∉ deliverTargets (on_message envRelay stA mA).2.1
    ∧ (deliverTargets (on_message envRelay stA mA).2.1).length
        = stA.mem.channels.length - 1 := by
  have h := c2_theorem envRelay stA mA ⟨"en", 10, 1⟩ rfl (by decide) (by decide)
    ⟨by decide, by decide⟩ (Or.inl rfl)
  exact ⟨h.1, h.2.2.1, h.2.2.2 (by decide)⟩

/-- C3 counterexample.  A concrete message classified toxic (`mA` under
`envA`, channel registered, score map above threshold) whose complete effect
trace contains no private-notification operation: the handler increments the
ledger, logs and deletes, but never attempts to direct-message the author,
contrary to the claimed notify-then-fallback chain. -/
theorem c3_counterexample :
    (on_message envA stA mA).2.2 = .moderated
    ∧ ((on_message envA stA mA).2.1.all fun a => !a.isNotifyAuthor) = true := by
  decide

/-- C3 (amended): for every message classified toxic, the warning ledger for
(guild, author) is incremented by exactly 1, the original message is
deleted, and when a log channel is configured for the guild (with a
non-zero stored id) and resolvable, a log embed carrying the full score map
is emitted there; no private notification of the author is ever attempted
(the trace contains no direct-notification operation), so there is no
notification-failure fallback. -/
theorem c3_theorem (env : Env) (st : Store) (m : Message) (info : ChannelInfo)
    (hbot : m.author.bot = false)
    (hreg : alookup st.mem.channels m.channelId = some info)
    (hurl : hasUrl m.content = false)
    (hen : env.enableToxicity = true)
    (htox : ((env.oracle m.content).any fun kv => decide (mkRat 1 2 < kv.2)) = true) :
    (on_message env st m).2.2 = .moderated
    ∧ get_warnings (on_message env st m).1.mem m.guildId m.author.id
        = get_warnings st.mem m.guildId m.author.id + 1
    ∧ ((on_message env st m).2.1.all fun a => !a.isNotifyAuthor) = true
    ∧ (∀ ch, alookup st.mem.logs m.guildId = some ch → ch ≠ 0 →
        env.resolveChannel m.guildId ch = true →
        Effect.logEmbed ch m.author.id m.content (env.oracle m.content)
          ∈ (on_message env st m).2.1)
    ∧ Effect.deleteMessage ∈ (on_message env st m).2.1 := by
  have heq := on_message_toxic_eq env st m info hbot hreg hurl hen htox
  rw [heq]
  refine ⟨rfl, get_warnings_add_self st m.guildId m.author.id, ?_, ?_, by simp⟩
  · simp only [List.all_cons, List.all_append, log_no_notify]
    simp [Effect.isNotifyAuthor]
  · intro ch hch hz hr
    have hlogs : alookup (add_warning st m.guildId m.author.id).2.1.mem.logs m.guildId
        = some ch := by
      rw [add_warning_logs]
      exact hch
    unfold log_toxic_message
    rw [hlogs]
    simp [hz, hr]

/-- C3 witness: the amended theorem applied to `mA` under `envA`, where
guild 10 logs to channel 5. -/
theorem c3_witness :
    (on_message envA stA mA).2.2 = .moderated
    ∧ ((on_message envA stA mA).2.1.all fun a => !a.isNotifyAuthor) = true
    ∧ Effect.logEmbed 5 mA.author.id mA.content (envA.oracle mA.content)
        ∈ (on_message envA stA mA).2.1
    ∧ Effect.deleteMessage ∈ (on_message envA stA mA).2.1 := by
  have h := c3_theorem envA stA mA ⟨"en", 10, 1⟩ rfl (by decide) (by decide) rfl (by decide)
  exact ⟨h.1, h.2.2.1, h.2.2.2.1 5 rfl (by decide) rfl, h.2.2.2.2⟩

/-- C4: resolving the delivery endpoint twice in a row for the same
destination channel, with the platform still reporting the endpoint alive
(no intervening endpoint-gone condition), returns the same endpoint id,
performs no webhook creation and leaves the registry unchanged; when no
endpoint is cached, `send_to_channel` creates one and persists its id via
the registry store (the `saveData` file write, third element of the trace)
strictly before the post through it (fourth element), the saved registry
then mapping the channel to the new id; and when a cached id exists but the
platform reports it gone, the resolver likewise creates a fresh endpoint and
persists its id before returning it for use. -/
theorem c4_theorem (env : Env) (st : Store) (cid : Nat) (a : Author) (content : String) :
    (env.fetchWebhook (resolve_webhook env st cid).1 = true →
      resolve_webhook env (resolve_webhook env st cid).2.1 cid
        = ((resolve_webhook env st cid).1, (resolve_webhook env st cid).2.1,
            [Effect.fetchWebhook (resolve_webhook env st cid).1]))
    ∧ (alookup st.mem.webhooks cid = none → hasUrl content = false →
        send_to_channel env st cid a content
          = ((resolve_webhook env st cid).2.1,
              [Effect.deliverCall cid, Effect.createWebhook cid,
               Effect.saveData (resolve_webhook env st cid).2.1.mem,
               Effect.post (env.createWebhook cid) content (a.displayName.take 32)
                 a.avatarUrl true])
        ∧ alookup (resolve_webhook env st cid).2.1.saved.webhooks cid
            = some (env.createWebhook cid))
    ∧ (∀ w, alookup st.mem.webhooks cid = some w → env.fetchWebhook w = false →
        resolve_webhook env st cid
          = (env.createWebhook cid,
              ⟨{ st.mem with webhooks := aset st.mem.webhooks cid (env.createWebhook cid) },
               { st.mem with webhooks := aset st.mem.webhooks cid (env.createWebhook cid) }⟩,
              [Effect.fetchWebhook w, Effect.createWebhook cid,
               Effect.saveData
                 { st.mem with webhooks := aset st.mem.webhooks cid (env.createWebhook cid) }])
        ∧ alookup (resolve_webhook env st cid).2.1.saved.webhooks cid
            = some (env.createWebhook cid)) := by
  refine ⟨?_, ?_, ?_⟩
  · intro halive
    exact resolve_cached env (resolve_webhook env st cid).2.1 cid
      (resolve_webhook env st cid).1 (resolve_webhook_mem_webhooks env st cid) halive
  · intro hmiss hurl
    have hres : resolve_webhook env st cid
        = (env.createWebhook cid,
            ⟨{ st.mem with webhooks := aset st.mem.webhooks cid (env.createWebhook cid) },
             { st.mem with webhooks := aset st.mem.webhooks cid (env.createWebhook cid) }⟩,
            [Effect.createWebhook cid,
             Effect.saveData
               { st.mem with webhooks := aset st.mem.webhooks cid (env.createWebhook cid) }]) := by
      unfold resolve_webhook
      rw [hmiss]
    constructor
    · unfold send_to_channel
      rw [hres]
      simp [hurl]
    · rw [hres]
      exact alookup_aset_self _ _ _
  · intro w hc hf
    have hres : resolve_webhook env st cid
        = (env.createWebhook cid,
            ⟨{ st.mem with webhooks := aset st.mem.webhooks cid (env.createWebhook cid) },
             { st.mem with webhooks := aset st.mem.webhooks cid (env.createWebhook cid) }⟩,
            [Effect.fetchWebhook w, Effect.createWebhook cid,
             Effect.saveData
               { st.mem with webhooks := aset st.mem.webhooks cid (env.createWebhook cid) }]) := by
      unfold resolve_webhook
      rw [hc]
      simp [hf]
    refine ⟨hres, ?_⟩
    rw [hres]
    exact alookup_aset_self _ _ _

/-- C4 witness: under `envA` (webhook fetch always succeeds) and the empty
webhook cache of `stA`, the first resolution for channel 2 creates and
persists id 102, and a second resolution straight after reuses it without
creating another. -/
theorem c4_witness :
    resolve_webhook envA (resolve_webhook envA stA 2).2.1 2
      = ((resolve_webhook envA stA 2).1, (resolve_webhook envA stA 2).2.1,
          [Effect.fetchWebhook (resolve_webhook envA stA 2).1])
    ∧ alookup (resolve_webhook envA stA 2).2.1.saved.webhooks 2
        = some (envA.createWebhook 2) := by
  have h := c4_theorem envA stA 2 ⟨7, false, "Alice", "av"⟩ "hola"
  exact ⟨h.1 rfl, (h.2.1 rfl (by decide)).2⟩

/-- C5: if translation is disabled, `translate_text` returns the input
unchanged and performs no network call; when enabled it performs exactly one
POST, and on a transport error, any non-200 status, a body that fails to
parse, or a body missing the `translatedText` key, it returns the original
text unchanged — the function always returns normally, so no exception
propagates out of the relay. -/
theorem c5_theorem (env : Env) (text target : String) :
    (env.enableTranslation = false → translate_text env text target = (text, []))
    ∧ (env.enableTranslation = true →
        (translate_text env text target).2 = [Effect.translateCall text target])
    ∧ (env.translateResp text target = .transportError →
        (translate_text env text target).1 = text)
    ∧ (∀ code body, env.translateResp text target = .status code body →
        (code ≠ 200 ∨ body = none ∨ body = some none) →
        (translate_text env text target).1 = text) := by
  refine ⟨fun hd => by simp [translate_text, hd], fun he => ?_, fun herr => ?_, ?_⟩
  · unfold translate_text
    rw [he]
    match h : env.translateResp text target with
    | .transportError => simp
    | .status code body =>
      by_cases hc : code = 200
      · match body with
        | some (some s) => simp [hc]
        | some none => simp [hc]
        | none => simp [hc]
      · simp [hc]
  · unfold translate_text
    by_cases hd : env.enableTranslation = false
    · simp [hd]
    · simp only [hd, Bool.false_eq_true, if_false, herr]
      simp
  · intro code body hresp hfail
    unfold translate_text
    by_cases hd : env.enableTranslation = false
    · simp [hd]
    · simp only [hd, Bool.false_eq_true, if_false, hresp]
      rcases hfail with hc | hb | hb
      · simp [hc]
      · subst hb
        by_cases hc : code = 200
        · simp [hc]
        · simp [hc]
      · subst hb
        by_cases hc : code = 200
        · simp [hc]
        · simp [hc]

/-- C5 witness: the theorem applied to concrete environments — translation
disabled, HTTP 500 answer, and a transport error — on input "hi". -/
theorem c5_witness :
    translate_text envNoTranslate "hi" "es" = ("hi", [])
    ∧ (translate_text envBadStatus "hi" "es").1 = "hi"
    ∧ (translate_text envTransportErr "hi" "es").1 = "hi" :=
  ⟨(c5_theorem envNoTranslate "hi" "es").1 rfl,
    (c5_theorem envBadStatus "hi" "es").2.2.2 500 (some (some "x")) rfl (Or.inl (by decide)),
    (c5_theorem envTransportErr "hi" "es").2.2.1 rfl⟩

/-- C6: every webhook post the handler ever emits — for any environment,
registry state and message — is made under the original author's display
name truncated to 32 characters (the platform display-name maximum), the
author's avatar URL, and with mention expansion suppressed unconditionally,
so a re-posted message never triggers notification pings in the destination
server. -/
theorem c6_theorem (env : Env) (st : Store) (m : Message) :
    ((on_message env st m).2.1.all (postIdentityOk m.author)) = true := by
  cases hbot : m.author.bot with
  | true => unfold on_message; simp [hbot]
  | false =>
    match hreg : alookup st.mem.channels m.channelId with
    | none => unfold on_message; simp [hbot, hreg]
    | some info =>
      cases hurl : hasUrl m.content with
      | true => unfold on_message; simp [hbot, hreg, hurl]
      | false =>
        cases hen : env.enableToxicity with
        | false =>
          rw [on_message_relay_eq env st m info hbot hreg hurl (Or.inl hen)]
          simp [List.all_append, postOk_translate, postOk_fanout, hen]
        | true =>
          cases htox : (env.oracle m.content).any fun kv => decide (mkRat 1 2 < kv.2) with
          | true =>
            rw [on_message_toxic_eq env st m info hbot hreg hurl hen htox]
            simp only [List.all_cons, List.all_append, postOk_log]
            simp [postIdentityOk]
          | false =>
            rw [on_message_relay_eq env st m info hbot hreg hurl (Or.inr htox)]
            simp [List.all_append, postOk_translate, postOk_fanout, hen, postIdentityOk]

/-- C6 witness: the theorem applied to the concrete relayed message `mA`
under `envRelay`. -/
theorem c6_witness :
    ((on_message envRelay stA mA).2.1.all (postIdentityOk mA.author)) = true :=
  c6_theorem envRelay stA mA

/-- C7 counterexample.  `add_warning` (the code's increment operation) has
no return statement: on a fresh store its returned value is `None`, not the
new count — the new count is 1 and is only observable through
`get_warnings`. -/
theorem c7_counterexample :
    (add_warning ⟨emptyData, emptyData⟩ 1 2).1 = none
    ∧ get_warnings (add_warning ⟨emptyData, emptyData⟩ 1 2).2.1.mem 1 2 = 1
    ∧ (add_warning ⟨emptyData, emptyData⟩ 1 2).1
        ≠ some (get_warnings (add_warning ⟨emptyData, emptyData⟩ 1 2).2.1.mem 1 2) := by
  decide

/-- C7 (amended): for every (guild, user), `add_warning` increases the
stored count by exactly 1 and persists synchronously before returning (the
saved registry equals the new in-memory registry), but returns `None`, not
the new count; `get_warnings` returns 0 for a pair never incremented; and
the ledger is monotonically non-decreasing across the message handler. -/
theorem c7_theorem (st : Store) (g u : Nat) :
    (add_warning st g u).1 = none
    ∧ get_warnings (add_warning st g u).2.1.mem g u = get_warnings st.mem g u + 1
    ∧ (add_warning st g u).2.1.saved = (add_warning st g u).2.1.mem
    ∧ get_warnings emptyData g u = 0
    ∧ (∀ env m g' u', get_warnings st.mem g' u'
        ≤ get_warnings (on_message env st m).1.mem g' u') :=
  ⟨rfl, get_warnings_add_self st g u, rfl, rfl,
    fun env m g' u' => get_warnings_on_message_le env st m g' u'⟩

/-- C7 witness: the theorem applied to the fresh store and (guild, user)
(3, 4): the count goes from 0 to 1 and the write is persisted. -/
theorem c7_witness :
    get_warnings (add_warning ⟨emptyData, emptyData⟩ 3 4).2.1.mem 3 4
      = get_warnings emptyData 3 4 + 1
    ∧ (add_warning ⟨emptyData, emptyData⟩ 3 4).2.1.saved
      = (add_warning ⟨emptyData, emptyData⟩ 3 4).2.1.mem :=
  ⟨(c7_theorem ⟨emptyData, emptyData⟩ 3 4).2.1, (c7_theorem ⟨emptyData, emptyData⟩ 3 4).2.2.1⟩

/-- C8: every inbound message authored by the relay itself reaches the
IGNORED terminal state immediately — the platform marks the relay's own user
as a bot account, the handler's first check drops bot authors — with the
registry unchanged and an empty effect trace: no moderation, no translation,
no delivery, so a relayed copy is never itself relayed again. -/
theorem c8_theorem (env : Env) (st : Store) (m : Message)
    (h : m.author = env.selfUser) :
    on_message env st m = (st, [], .ignoredBot) := by
  have hb : m.author.bot = true := by rw [h]; exact env.self_is_bot
  unfold on_message
  simp [hb]

/-- C8 witness: the theorem applied to `mSelf`, a message whose author is
`envA`'s own user. -/
theorem c8_witness : on_message envA stA mSelf = (stA, [], .ignoredBot) :=
  c8_theorem envA stA mSelf rfl

/-- C9: for every message posted in a channel that is not registered,
processing is a pure no-op: the registry is unchanged and the effect trace
is empty — no toxicity-oracle call, no translation call, no delivery, no
registry mutation. -/
theorem c9_theorem (env : Env) (st : Store) (m : Message)
    (h : alookup st.mem.channels m.channelId = none) :
    (on_message env st m).1 = st ∧ (on_message env st m).2.1 = [] := by
  unfold on_message
  by_cases hbot : m.author.bot
  · simp [hbot]
  · simp [hbot, h]

/-- C9 witness: the theorem applied to `mUnreg`, a message in the
unregistered channel 99. -/
theorem c9_witness :
    (on_message envA stA mUnreg).1 = stA ∧ (on_message envA stA mUnreg).2.1 = [] :=
  c9_theorem envA stA mUnreg (by decide)

/-- C10: for every message whose content contains a substring matching
http:// or https://, the handler stops before moderation — the registry is
unchanged and the effect trace is empty, so no oracle call, no warning
increment, no deletion, no translation and no delivery occur — and the same
URL filter inside `send_to_channel` makes delivery of any such content a
no-op that never posts to any destination. -/
theorem c10_theorem (env : Env) (st st2 : Store) (m : Message) (cid : Nat)
    (a : Author) (content : String)
    (h : hasUrl m.content = true) (h2 : hasUrl content = true) :
    ((on_message env st m).1 = st ∧ (on_message env st m).2.1 = [])
    ∧ send_to_channel env st2 cid a content = (st2, [Effect.deliverCall cid]) := by
  constructor
  · unfold on_message
    by_cases hbot : m.author.bot
    · simp [hbot]
    · match hreg : alookup st.mem.channels m.channelId with
      | none => simp [hbot, hreg]
      | some info => simp [hbot, hreg, h]
  · unfold send_to_channel
    simp [h2]

/-- C10 witness: the theorem applied to the URL-containing message `mB` and
the content "https://z" handed directly to delivery. -/
theorem c10_witness :
    ((on_message envA stA mB).1 = stA ∧ (on_message envA stA mB).2.1 = [])
    ∧ send_to_channel envA stA 2 mB.author "https://z" = (stA, [Effect.deliverCall 2]) :=
  c10_theorem envA stA stA mB 2 mB.author "https://z" (by decide) (by decide)
